import Mathlib

/-!
# Verification of the serial-port / Modbus-RTU core (mcu-test-slint)

Shallow embedding of the repository's core components and proofs about them:

* `src/serial/modbus.rs` — the pure Modbus-RTU frame codec
  (`ModbusFrame::to_bytes`, `ModbusFrame::from_bytes`, `RegisterType`),
  embedded over `Nat` lists with explicit masking where Rust's `u8`/`u16`
  arithmetic truncates.
* `src/serial/base.rs` — the per-port channel (`SerialPortManager`):
  the transaction loop of `send_modbus_command` is embedded as a pure
  function over a scripted sequence of read outcomes, and the atomic
  writes each operation performs on the pair (port handle, connected
  flag) are embedded as step lists over an explicit state.
* `src/serial/manager.rs` — the registry's discovery loop: the
  watched-set adoption pass (step 3.1 of `start_monitoring_task`) is
  embedded as a pure function of the snapshot lists it reads.
-/

/-! ## CRC-16/MODBUS

`modbus.rs` uses the `crc` crate with `CRC_16_MODBUS`: reflected
algorithm, polynomial `0xA001` (reflected `0x8005`), initial value
`0xFFFF`, no final xor.  `to_bytes` uses `digest()` and `from_bytes`
uses `digest_with_initial(0xFFFF)`; for this reflected width-16
algorithm both start from state `0xFFFF`, so the two sides compute the
same function, embedded here bitwise over `Nat`. -/

/-- One shift step of the reflected CRC-16/MODBUS computation: if the
low bit is set, shift right and xor the reflected polynomial `0xA001`,
otherwise just shift right. -/
def crcStep (c : Nat) : Nat :=
  if c % 2 = 1 then (c / 2) ^^^ 0xA001 else c / 2

/-- `n`-fold iteration of `crcStep`. -/
def crcSteps : Nat → Nat → Nat
  | 0, c => c
  | n + 1, c => crcSteps n (crcStep c)

/-- Feed one byte into the CRC state: xor it in, then run 8 shift steps. -/
def crcUpdate (c b : Nat) : Nat := crcSteps 8 (c ^^^ b)

/-- CRC-16/MODBUS of a byte sequence, initial state `0xFFFF`. -/
def crc16 (bytes : List Nat) : Nat := bytes.foldl crcUpdate 0xFFFF

/-! ## The Modbus codec (`src/serial/modbus.rs`) -/

/-- `RegisterType` from `modbus.rs`. -/
inductive RegisterType
  | coil
  | discreteInput
  | holdingRegister
  | inputRegister
deriving DecidableEq, Repr

/-- `RegisterType::read_code`. -/
def RegisterType.read_code : RegisterType → Nat
  | .coil => 0x01
  | .discreteInput => 0x02
  | .holdingRegister => 0x03
  | .inputRegister => 0x04

/-- `RegisterType::write_code`.  The Rust function panics (fails fast)
on `DiscreteInput` and `InputRegister`; the panic is embedded as
`none`, a returned function code as `some`. -/
def RegisterType.write_code : RegisterType → Option Nat
  | .coil => some 0x05
  | .holdingRegister => some 0x06
  | _ => none

/-- `ModbusError` from `modbus.rs`.  The `IoError` variant wraps an OS
error in Rust; the wrapped cause is abstracted away here (it is never
produced by the pure codec). -/
inductive ModbusError
  | crcMismatch (calculated received : Nat)
  | exceptionResponse (code error : Nat)
  | invalidLength (expected actual : Nat)
  | functionCodeMismatch (expected actual : Nat)
  | ioError
  | addressMismatch (expected actual : Nat)
deriving DecidableEq, Repr

/-- `ModbusFrame` from `modbus.rs`: slave address and function code are
`u8` in Rust, the payload is `Vec<u8>`; embedded as `Nat`s with the
byte bounds stated as hypotheses where they matter. -/
structure ModbusFrame where
  slave_address : Nat
  function_code : Nat
  data : List Nat
deriving DecidableEq, Repr

/-- `ModbusFrame::MIN_FRAME_LENGTH`: address + function + 2 CRC bytes. -/
def ModbusFrame.MIN_FRAME_LENGTH : Nat := 4

/-- `ModbusFrame::calculate_crc`: CRC over slave address, function
code, then payload. -/
def ModbusFrame.calculate_crc (f : ModbusFrame) : Nat :=
  crc16 ([f.slave_address] ++ [f.function_code] ++ f.data)

/-- `ModbusFrame::to_bytes`: address, function, payload, then the CRC
low byte and high byte (the Rust `as u8` casts are the `% 256`). -/
def ModbusFrame.to_bytes (f : ModbusFrame) : List Nat :=
  let crc := f.calculate_crc
  [f.slave_address, f.function_code] ++ f.data ++ [crc % 256, crc / 256 % 256]

/-- `ModbusFrame::from_bytes`.  `u16::from_le_bytes [lo, hi]` is
`lo + 256 * hi`; slice indexing `frame_bytes[i]` is `List.getD i 0`
(every read the Rust code performs is in bounds once the length check
has passed). -/
def ModbusFrame.from_bytes (bytes : List Nat) : Except ModbusError ModbusFrame :=
  if bytes.length < ModbusFrame.MIN_FRAME_LENGTH then
    .error (.invalidLength ModbusFrame.MIN_FRAME_LENGTH bytes.length)
  else
    let crc_position := bytes.length - 2
    let frame_bytes := bytes.take crc_position
    let crc_bytes := bytes.drop crc_position
    let crc := crc_bytes.getD 0 0 + 256 * crc_bytes.getD 1 0
    let calc_crc := crc16 frame_bytes
    if calc_crc ≠ crc then
      .error (.crcMismatch calc_crc crc)
    else if frame_bytes.getD 1 0 &&& 0x80 ≠ 0 then
      .error (.exceptionResponse (frame_bytes.getD 1 0 &&& 0x7F)
        (if 2 < frame_bytes.length then frame_bytes.getD 2 0 else 0))
    else
      .ok ⟨frame_bytes.getD 0 0, frame_bytes.getD 1 0, frame_bytes.drop 2⟩

/-- Flip bit `k` of byte `i` of a byte sequence. -/
def flipBit (bytes : List Nat) (i k : Nat) : List Nat :=
  bytes.set i (bytes.getD i 0 ^^^ 2 ^ k)

/-! ## The channel transaction path (`src/serial/base.rs`)

`SerialPortManager::send` and `SerialPortManager::send_modbus_command`
are embedded as pure functions.  The parts of the channel state they
consult are passed explicitly: the atomic `is_connected` flag, whether
the `Mutex<Option<SerialStream>>` currently holds a stream, and whether
the request write succeeds.  The sequence of outcomes that successive
`port.read(..)` calls would produce is passed as a script; the
`tokio::time::timeout` deadline firing is represented by the script
running out while the read loop is still going.  Alongside the result,
each function returns the list of lock/write/read operations it
performed, in order. -/

/-- An observable channel operation: acquiring the port mutex, writing
the request bytes, or performing one read attempt. -/
inductive IOEvent
  | lockPort
  | writeBytes (data : List Nat)
  | readPort
deriving DecidableEq, Repr

/-- Outcome of one `port.read(&mut buffer)` call: `readOk bs` is a
successful read returning the bytes `bs` (`bs = []` is the `n == 0`
EOF case), `readErr` is an I/O error. -/
inductive ReadEvent
  | readOk (bs : List Nat)
  | readErr
deriving DecidableEq, Repr

/-- Result of `send` / `send_modbus_command`, mirroring the `anyhow`
errors the Rust code constructs. -/
inductive SendResult
  | ok (response : List Nat)
  | notOpen
  | writeError
  | connectionClosed
  | readError
  | timeout
deriving DecidableEq, Repr

/-- The read loop inside `send_modbus_command` (the async block under
`time::timeout`).  `acc` is the `response` vector accumulated so far.
A successful read of `n > 0` bytes extends `response` and breaks if
that single read had `n >= 4`; a zero-length read breaks if
`response.len() >= 4` and otherwise fails with `Connection closed`; a
read error fails; if the script is exhausted with the loop still
running, the surrounding `timeout` fires. -/
def readLoop : List ReadEvent → List Nat → SendResult × List IOEvent
  | [], _ => (.timeout, [])
  | .readOk bs :: rest, acc =>
    if bs.length > 0 then
      let response := acc ++ bs
      if bs.length ≥ 4 then
        (.ok response, [.readPort])
      else
        let (r, evs) := readLoop rest response
        (r, .readPort :: evs)
    else
      if acc.length ≥ 4 then
        (.ok acc, [.readPort])
      else
        (.connectionClosed, [.readPort])
  | .readErr :: _, _ => (.readError, [.readPort])

/-- `SerialPortManager::send`: fail fast on the atomic flag without
taking the lock; otherwise lock, and write if the stream is present. -/
def SerialPortManager.send (connected portPresent writeOk : Bool)
    (data : List Nat) : SendResult × List IOEvent :=
  if !connected then
    (.notOpen, [])
  else if portPresent then
    if writeOk then (.ok [], [.lockPort, .writeBytes data])
    else (.writeError, [.lockPort, .writeBytes data])
  else
    (.notOpen, [.lockPort])

/-- `SerialPortManager::send_modbus_command`: fail fast on the atomic
flag without taking the lock; otherwise lock, write the command, then
run the timed read loop. -/
def SerialPortManager.send_modbus_command (connected portPresent writeOk : Bool)
    (command : List Nat) (script : List ReadEvent) : SendResult × List IOEvent :=
  if !connected then
    (.notOpen, [])
  else if portPresent then
    if writeOk then
      let (r, evs) := readLoop script []
      (r, .lockPort :: .writeBytes command :: evs)
    else
      (.writeError, [.lockPort, .writeBytes command])
  else
    (.notOpen, [.lockPort])

/-- The read-loop behaviour exactly as `send_modbus_command` implements
it, written as a declarative relation (script, already-accumulated
bytes, result): a single read of at least 4 bytes returns everything
accumulated; a shorter nonzero read continues; a zero-length read
returns the accumulated bytes if at least 4 of them exist and fails
with `connectionClosed` otherwise; a read error fails; an exhausted
script is the deadline. -/
inductive TransactionLoop : List ReadEvent → List Nat → SendResult → Prop
  | deadline (acc) : TransactionLoop [] acc .timeout
  | bigRead (bs rest acc) : bs ≠ [] → 4 ≤ bs.length →
      TransactionLoop (.readOk bs :: rest) acc (.ok (acc ++ bs))
  | smallRead (bs rest acc r) : bs ≠ [] → bs.length < 4 →
      TransactionLoop rest (acc ++ bs) r →
      TransactionLoop (.readOk bs :: rest) acc r
  | eofWithFrame (rest acc) : 4 ≤ acc.length →
      TransactionLoop (.readOk [] :: rest) acc (.ok acc)
  | eofClosed (rest acc) : acc.length < 4 →
      TransactionLoop (.readOk [] :: rest) acc .connectionClosed
  | readFailed (rest acc) : TransactionLoop (.readErr :: rest) acc .readError

/-- The read-loop behaviour as the specification sentence words it
(claim C1): reading stops successfully once at least 4 bytes have been
accumulated **across all reads**; a zero-length read with no prior
accumulated data fails with `connectionClosed`; a zero-length read
with **any** prior accumulated data returns that data, however short;
an exhausted script is the deadline. -/
inductive ClaimedTransactionLoop : List ReadEvent → List Nat → SendResult → Prop
  | deadline (acc) : ClaimedTransactionLoop [] acc .timeout
  | enough (bs rest acc) : bs ≠ [] → 4 ≤ (acc ++ bs).length →
      ClaimedTransactionLoop (.readOk bs :: rest) acc (.ok (acc ++ bs))
  | notEnough (bs rest acc r) : bs ≠ [] → (acc ++ bs).length < 4 →
      ClaimedTransactionLoop rest (acc ++ bs) r →
      ClaimedTransactionLoop (.readOk bs :: rest) acc r
  | eofNoData (rest) : ClaimedTransactionLoop (.readOk [] :: rest) [] .connectionClosed
  | eofData (rest acc) : acc ≠ [] →
      ClaimedTransactionLoop (.readOk [] :: rest) acc (.ok acc)

/-! ## The channel connection-state transitions (`src/serial/base.rs`)

For the `connected ⇒ port present` invariant (claim C3) the relevant
state is the pair (port slot holds a stream, atomic `is_connected`
value), and the relevant code is the sequence of individual writes each
operation performs to those two locations.  Each Rust statement
`*port_guard = …` / `is_connected.store(…)` is one atomic step; a
concurrent reader of the atomic flag (`is_open`, `send`'s fast path)
does not take the mutex, so the state after every single step is
observable against a concurrent flag read. -/

/-- The two channel state locations claim C3 is about. -/
structure ChanState where
  portPresent : Bool
  connected : Bool
deriving DecidableEq, Repr

/-- One atomic write to the channel state. -/
inductive ChanStep
  | setPort (b : Bool)
  | setConnected (b : Bool)
deriving DecidableEq, Repr

/-- Apply one atomic write. -/
def applyStep (s : ChanState) : ChanStep → ChanState
  | .setPort b => { s with portPresent := b }
  | .setConnected b => { s with connected := b }

/-- Run a sequence of atomic writes. -/
def runSteps (s : ChanState) : List ChanStep → ChanState :=
  List.foldl applyStep s

/-- Every state along a sequence of atomic writes, the initial and
final states included. -/
def statesAlong (s : ChanState) : List ChanStep → List ChanState
  | [] => [s]
  | step :: rest => s :: statesAlong (applyStep s step) rest

/-- The write sequence of `SerialPortManager::close`: clear the port
slot if it holds a stream, then store `false` to the flag. -/
def closeSteps (portPresent : Bool) : List ChanStep :=
  if portPresent then [.setPort false, .setConnected false]
  else [.setConnected false]

/-- The write sequence of `SerialPortManager::open` (the
`scpi_initialize` hook always succeeds in the source, so the
initialization-failure path is dead code): if the slot already holds a
stream, just store `true`; otherwise on OS success store the stream
then `true`, and on OS failure store `false`. -/
def openSteps (portPresent osOpenOk : Bool) : List ChanStep :=
  if portPresent then [.setConnected true]
  else if osOpenOk then [.setPort true, .setConnected true]
  else [.setConnected false]

/-- The write sequence of the receive task's disconnect handling (a
zero-length read or a read error): clear the port slot, then store
`false` to the flag. -/
def receiveDisconnectSteps : List ChanStep :=
  [.setPort false, .setConnected false]

/-- The write sequence of the receive task when forwarding to the
internal queue fails: store `false` to the flag (the port slot is left
untouched) and stop. -/
def receiveQueueDeadSteps : List ChanStep :=
  [.setConnected false]

/-- The invariant of claim C3: whenever the atomic flag reads `true`,
the port slot holds a stream. -/
def connInv (s : ChanState) : Prop :=
  s.connected = true → s.portPresent = true

instance (s : ChanState) : Decidable (connInv s) := by
  unfold connInv; infer_instance

/-! ## The registry discovery loop (`src/serial/manager.rs`)

Step 3.1 of `start_monitoring_task` walks `ports_list` (the keys of
the `ports` registry map, captured under the map lock) and, for each
entry absent from the cloned `task_ports` snapshot, pushes it onto the
live watched list and emits `PortAddedToMonitoring`.  It is the only
code in a discovery cycle that grows the watched set. -/

/-- The lifecycle events of `SerialPortEvent` (fields beyond the port
name are omitted for the variants the claims do not inspect). -/
inductive SerialPortEvent
  | portAddedToMonitoring (port : String)
  | portRemovedFromSystem (port : String)
  | portReconnected (port : String)
  | portConnectionFailed (port : String)
  | portStatusUpdate (port : String) (is_connected is_available : Bool)
deriving DecidableEq, Repr

/-- The `for port in &ports_list` loop of step 3.1: `snapshot` is the
cloned `task_ports` the membership test uses, `watched` the live list
being pushed to, `evs` the events emitted so far. -/
def adoptLoop : List String → List String → List String → List SerialPortEvent →
    List String × List SerialPortEvent
  | [], _, watched, evs => (watched, evs)
  | p :: rest, snapshot, watched, evs =>
    if p ∈ snapshot then
      adoptLoop rest snapshot watched evs
    else
      adoptLoop rest snapshot (watched ++ [p]) (evs ++ [.portAddedToMonitoring p])

/-- Step 3.1 of one discovery cycle: the watched list after the loop
and the `PortAddedToMonitoring` events it emitted, as functions of the
registered-ports snapshot and the watched-set snapshot. -/
def adoptPorts (ports_list task_ports : List String) :
    List String × List SerialPortEvent :=
  adoptLoop ports_list task_ports task_ports []

/-! ## Helper lemmas about the CRC -/

/-- `crcStep` keeps the state inside 16 bits. -/
lemma crcStep_lt {c : Nat} (h : c < 65536) : crcStep c < 65536 := by
  unfold crcStep
  split
  · exact Nat.xor_lt_two_pow (n := 16) (by omega) (by norm_num)
  · omega

/-- `crcStep` is injective on 16-bit states: the polynomial `0xA001`
has its top bit set, so the parity of the input is recoverable from
bit 15 of the output. -/
lemma crcStep_inj {c₁ c₂ : Nat} (h₁ : c₁ < 65536) (h₂ : c₂ < 65536)
    (heq : crcStep c₁ = crcStep c₂) : c₁ = c₂ := by
  unfold crcStep at heq
  by_cases p₁ : c₁ % 2 = 1 <;> by_cases p₂ : c₂ % 2 = 1 <;>
    simp only [p₁, p₂, if_true, if_false, if_pos, if_neg, reduceIte] at heq
  · have : c₁ / 2 = c₂ / 2 := by
      have := congrArg (fun x => x ^^^ 0xA001) heq
      simpa [Nat.xor_cancel_right] using this
    omega
  · exfalso
    have := congrArg (fun x => Nat.testBit x 15) heq
    simp only [Nat.testBit_xor] at this
    rw [Nat.testBit_lt_two_pow (x := c₁ / 2) (by omega),
        Nat.testBit_lt_two_pow (x := c₂ / 2) (by omega)] at this
    simp only [Bool.false_xor] at this
    exact absurd this (by decide)
  · exfalso
    have := congrArg (fun x => Nat.testBit x 15) heq
    simp only [Nat.testBit_xor] at this
    rw [Nat.testBit_lt_two_pow (x := c₁ / 2) (by omega),
        Nat.testBit_lt_two_pow (x := c₂ / 2) (by omega)] at this
    simp only [Bool.false_xor] at this
    exact absurd this (by decide)
  · omega

/-- `crcSteps` keeps the state inside 16 bits. -/
lemma crcSteps_lt : ∀ (n : Nat) {c : Nat}, c < 65536 → crcSteps n c < 65536
  | 0, _, h => h
  | n + 1, _, h => crcSteps_lt n (crcStep_lt h)

/-- `crcSteps` is injective on 16-bit states. -/
lemma crcSteps_inj : ∀ (n : Nat) {c₁ c₂ : Nat}, c₁ < 65536 → c₂ < 65536 →
    crcSteps n c₁ = crcSteps n c₂ → c₁ = c₂
  | 0, _, _, _, _, h => h
  | n + 1, _, _, h₁, h₂, h =>
    crcStep_inj h₁ h₂ (crcSteps_inj n (crcStep_lt h₁) (crcStep_lt h₂) h)

/-- `crcUpdate` keeps the state inside 16 bits for byte input. -/
lemma crcUpdate_lt {c b : Nat} (hc : c < 65536) (hb : b < 256) :
    crcUpdate c b < 65536 :=
  crcSteps_lt 8 (Nat.xor_lt_two_pow (n := 16) hc (by omega))

/-- `crcUpdate` is injective in the state for a fixed 16-bit byte. -/
lemma crcUpdate_inj {c₁ c₂ b : Nat} (h₁ : c₁ < 65536) (h₂ : c₂ < 65536)
    (hb : b < 65536) (h : crcUpdate c₁ b = crcUpdate c₂ b) : c₁ = c₂ := by
  have := crcSteps_inj 8 (Nat.xor_lt_two_pow (n := 16) h₁ hb)
    (Nat.xor_lt_two_pow (n := 16) h₂ hb) h
  have := congrArg (fun x => x ^^^ b) this
  simpa [Nat.xor_cancel_right] using this

/-- Folding `crcUpdate` over bytes keeps the state inside 16 bits. -/
lemma crcFoldl_lt : ∀ (l : List Nat) {c : Nat}, c < 65536 →
    (∀ b ∈ l, b < 256) → List.foldl crcUpdate c l < 65536
  | [], _, hc, _ => hc
  | b :: l, _, hc, hl =>
    crcFoldl_lt l (crcUpdate_lt hc (hl b (by simp)))
      (fun x hx => hl x (by simp [hx]))

/-- Folding `crcUpdate` over bytes is injective in the initial state. -/
lemma crcFoldl_inj : ∀ (l : List Nat) {c₁ c₂ : Nat}, c₁ < 65536 → c₂ < 65536 →
    (∀ b ∈ l, b < 256) →
    List.foldl crcUpdate c₁ l = List.foldl crcUpdate c₂ l → c₁ = c₂
  | [], _, _, _, _, _, h => h
  | b :: l, _, _, h₁, h₂, hl, h => by
    have hb : b < 256 := hl b (by simp)
    have := crcFoldl_inj l (crcUpdate_lt h₁ hb) (crcUpdate_lt h₂ hb)
      (fun x hx => hl x (by simp [hx])) h
    exact crcUpdate_inj h₁ h₂ (by omega) this

/-- The CRC of a byte sequence is a 16-bit value. -/
lemma crc16_lt {l : List Nat} (hl : ∀ b ∈ l, b < 256) : crc16 l < 65536 :=
  crcFoldl_lt l (by norm_num) hl

/-- Xoring a nonzero mask into one byte of a sequence changes its CRC. -/
lemma crc16_set_ne (pre suf : List Nat) (b m : Nat) (hb : b < 256)
    (hm0 : m ≠ 0) (hm : m < 256) (hpre : ∀ x ∈ pre, x < 256)
    (hsuf : ∀ x ∈ suf, x < 256) :
    crc16 (pre ++ (b ^^^ m) :: suf) ≠ crc16 (pre ++ b :: suf) := by
  intro h
  have e : ∀ x, crc16 (pre ++ x :: suf) =
      List.foldl crcUpdate (crcUpdate (List.foldl crcUpdate 0xFFFF pre) x) suf := by
    intro x
    simp [crc16, List.foldl_append]
  rw [e, e] at h
  have hs : List.foldl crcUpdate 0xFFFF pre < 65536 :=
    crcFoldl_lt pre (by norm_num) hpre
  have hbm : b ^^^ m < 256 := Nat.xor_lt_two_pow (n := 8) hb hm
  have h2 : crcUpdate (List.foldl crcUpdate 0xFFFF pre) (b ^^^ m) =
      crcUpdate (List.foldl crcUpdate 0xFFFF pre) b :=
    crcFoldl_inj suf (crcUpdate_lt hs hbm) (crcUpdate_lt hs hb) hsuf h
  have h3 := crcSteps_inj 8
    (Nat.xor_lt_two_pow (n := 16) hs (by omega))
    (Nat.xor_lt_two_pow (n := 16) hs (by omega)) h2
  have h4 : b ^^^ m = b := by
    have := congrArg (fun x => (List.foldl crcUpdate 0xFFFF pre) ^^^ x)
      (by simpa [Nat.xor_cancel_left] using h3)
    simpa [Nat.xor_cancel_left] using this
  have : 0 = m := by
    have := congrArg (fun x => b ^^^ x) h4.symm
    simpa [Nat.xor_cancel_left] using this
  exact hm0 this.symm

/-! ## Helper lemmas about the codec -/

/-- Unfolding of `from_bytes` on an input split as body plus the two
trailing CRC bytes. -/
lemma from_bytes_append_two (body : List Nat) (lo hi : Nat)
    (h2 : 2 ≤ body.length) :
    ModbusFrame.from_bytes (body ++ [lo, hi]) =
      (if crc16 body ≠ lo + 256 * hi then
        .error (.crcMismatch (crc16 body) (lo + 256 * hi))
      else if body.getD 1 0 &&& 0x80 ≠ 0 then
        .error (.exceptionResponse (body.getD 1 0 &&& 0x7F)
          (if 2 < body.length then body.getD 2 0 else 0))
      else
        .ok ⟨body.getD 0 0, body.getD 1 0, body.drop 2⟩) := by
  have hlen : (body ++ [lo, hi]).length = body.length + 2 := by simp
  have hpos : (body ++ [lo, hi]).length - 2 = body.length := by omega
  have htake : (body ++ [lo, hi]).take ((body ++ [lo, hi]).length - 2) = body := by
    rw [hpos]; exact List.take_left' rfl
  have hdrop : (body ++ [lo, hi]).drop ((body ++ [lo, hi]).length - 2) = [lo, hi] := by
    rw [hpos]; exact List.drop_left' rfl
  rw [ModbusFrame.from_bytes, if_neg (by simp [ModbusFrame.MIN_FRAME_LENGTH]; omega)]
  simp only [htake, hdrop, List.getD_cons_zero, List.getD_cons_succ]

/-! ## Claim theorems: the codec -/

/-- C2: for every slave address, every function code with the high bit
clear, and every payload, decoding the bytes produced by encoding
(`to_bytes` then `from_bytes`) succeeds and yields a frame with the
same slave address, function code and payload. -/
theorem C2_encode_decode_roundtrip (s fc : Nat) (d : List Nat)
    (hs : s < 256) (hf : fc < 128) (hd : ∀ b ∈ d, b < 256) :
    ModbusFrame.from_bytes (ModbusFrame.to_bytes ⟨s, fc, d⟩) =
      .ok ⟨s, fc, d⟩ := by
  have hbody : ∀ b ∈ s :: fc :: d, b < 256 := by
    intro b hb
    rcases hb with _ | ⟨_, hb⟩
    · omega
    · rcases hb with _ | ⟨_, hb⟩
      · omega
      · exact hd b hb
  have hceq : ModbusFrame.calculate_crc ⟨s, fc, d⟩ = crc16 (s :: fc :: d) := rfl
  have hlt : crc16 (s :: fc :: d) < 65536 := crc16_lt hbody
  have hsplit : ModbusFrame.to_bytes ⟨s, fc, d⟩ =
      (s :: fc :: d) ++
        [crc16 (s :: fc :: d) % 256, crc16 (s :: fc :: d) / 256 % 256] := by
    simp [ModbusFrame.to_bytes, hceq]
  rw [hsplit, from_bytes_append_two _ _ _ (by simp)]
  rw [if_neg (by simp only [ne_eq, not_not]; omega)]
  have hand : fc &&& 128 = 0 := by
    rw [show (128 : Nat) = 2 ^ 7 from rfl, Nat.and_two_pow,
      Nat.testBit_lt_two_pow hf]
    simp
  simp [List.getD_cons_succ, List.getD_cons_zero, hand]

/-- C2 witness: the round trip at a concrete frame. -/
theorem C2_encode_decode_roundtrip_witness :
    (1 : Nat) < 256 ∧ (3 : Nat) < 128 ∧ (∀ b ∈ [0, 1], b < 256) ∧
    ModbusFrame.from_bytes (ModbusFrame.to_bytes ⟨1, 3, [0, 1]⟩) =
      .ok ⟨1, 3, [0, 1]⟩ :=
  ⟨by decide, by decide, by decide,
    C2_encode_decode_roundtrip 1 3 [0, 1] (by decide) (by decide) (by decide)⟩

/-- C5: decoding a validly encoded frame whose function-code byte has
the high bit set fails with `ExceptionResponse` carrying the function
code with the high bit cleared and the error code taken from payload
byte 0, never returning a frame, whatever the payload contents. -/
theorem C5_exception_response_decode (s fc : Nat) (d : List Nat)
    (hs : s < 256) (hfc : fc < 256) (hd : ∀ b ∈ d, b < 256)
    (hbit : fc &&& 0x80 ≠ 0) (hne : d ≠ []) :
    ModbusFrame.from_bytes (ModbusFrame.to_bytes ⟨s, fc, d⟩) =
      .error (.exceptionResponse (fc &&& 0x7F) (d.getD 0 0)) := by
  have hbody : ∀ b ∈ s :: fc :: d, b < 256 := by
    intro b hb
    rcases hb with _ | ⟨_, hb⟩
    · omega
    · rcases hb with _ | ⟨_, hb⟩
      · omega
      · exact hd b hb
  have hceq : ModbusFrame.calculate_crc ⟨s, fc, d⟩ = crc16 (s :: fc :: d) := rfl
  have hlt : crc16 (s :: fc :: d) < 65536 := crc16_lt hbody
  have hsplit : ModbusFrame.to_bytes ⟨s, fc, d⟩ =
      (s :: fc :: d) ++
        [crc16 (s :: fc :: d) % 256, crc16 (s :: fc :: d) / 256 % 256] := by
    simp [ModbusFrame.to_bytes, hceq]
  rw [hsplit, from_bytes_append_two _ _ _ (by simp)]
  rw [if_neg (by simp only [ne_eq, not_not]; omega)]
  have hdpos : 0 < d.length := List.length_pos.mpr hne
  rw [if_pos (by simpa [List.getD_cons_succ, List.getD_cons_zero] using hbit)]
  simp only [List.getD_cons_succ, List.getD_cons_zero, List.length_cons]
  rw [if_pos (by omega)]

/-- C5 witness: a concrete exception frame with a one-byte payload. -/
theorem C5_exception_response_decode_witness :
    (1 : Nat) < 256 ∧ (0x83 : Nat) < 256 ∧ (∀ b ∈ [2], b < 256) ∧
    (0x83 : Nat) &&& 0x80 ≠ 0 ∧ ([2] : List Nat) ≠ [] ∧
    ModbusFrame.from_bytes (ModbusFrame.to_bytes ⟨1, 0x83, [2]⟩) =
      .error (.exceptionResponse (0x83 &&& 0x7F) (([2] : List Nat).getD 0 0)) :=
  ⟨by decide, by decide, by decide, by decide, by decide,
    C5_exception_response_decode 1 0x83 [2] (by decide) (by decide) (by decide)
      (by decide) (by decide)⟩

/-- C8: `write_code` fails fast (the Rust code panics, embedded as
`none`) for the two register classes without a write function code,
and returns `0x05` / `0x06` for `Coil` / `HoldingRegister`. -/
theorem C8_write_code_fail_fast :
    RegisterType.write_code .discreteInput = none ∧
    RegisterType.write_code .inputRegister = none ∧
    RegisterType.write_code .coil = some 0x05 ∧
    RegisterType.write_code .holdingRegister = some 0x06 := by
  decide

/-- C9: decoding fewer than 4 bytes always fails with the
insufficient-length error (the embedded `from_bytes` is total, so in
particular it reads nothing out of bounds on such inputs: it returns
before any index is touched). -/
theorem C9_short_input_invalid_length (bytes : List Nat)
    (h : bytes.length < 4) :
    ModbusFrame.from_bytes bytes = .error (.invalidLength 4 bytes.length) := by
  rw [ModbusFrame.from_bytes,
    if_pos (by simpa [ModbusFrame.MIN_FRAME_LENGTH] using h)]
  rfl

/-- C9 witness: the empty input. -/
theorem C9_short_input_invalid_length_witness :
    ([] : List Nat).length < 4 ∧
    ModbusFrame.from_bytes [] = .error (.invalidLength 4 ([] : List Nat).length) :=
  ⟨by decide, C9_short_input_invalid_length [] (by decide)⟩

/-- C10: a CRC-valid 4-byte input whose function-code byte has the high
bit set decodes to `ExceptionResponse` with reported error code 0 (the
frame body has only 2 bytes, so the `frame_bytes.len() > 2` guard makes
the error byte default to 0). -/
theorem C10_exception_without_payload (b0 b1 c0 c1 : Nat)
    (hcrc : crc16 [b0, b1] = c0 + 256 * c1) (hbit : b1 &&& 0x80 ≠ 0) :
    ModbusFrame.from_bytes [b0, b1, c0, c1] =
      .error (.exceptionResponse (b1 &&& 0x7F) 0) := by
  have hsplit : ([b0, b1, c0, c1] : List Nat) = [b0, b1] ++ [c0, c1] := rfl
  rw [hsplit, from_bytes_append_two _ _ _ (by simp)]
  rw [if_neg (by simp [hcrc])]
  rw [if_pos (by simpa [List.getD_cons_succ, List.getD_cons_zero] using hbit)]
  simp [List.getD_cons_succ, List.getD_cons_zero]

/-- C10 witness: `[0x01, 0x81]` has CRC `0x40C0`, so
`[0x01, 0x81, 0xC0, 0x40]` is CRC-valid with the high bit set. -/
theorem C10_exception_without_payload_witness :
    crc16 [1, 0x81] = 0xC0 + 256 * 0x40 ∧ (0x81 : Nat) &&& 0x80 ≠ 0 ∧
    ModbusFrame.from_bytes [1, 0x81, 0xC0, 0x40] =
      .error (.exceptionResponse (0x81 &&& 0x7F) 0) :=
  ⟨by decide, by decide,
    C10_exception_without_payload 1 0x81 0xC0 0x40 (by decide) (by decide)⟩

/-- C6: flipping any single bit of any body byte (any byte except the
two trailing CRC bytes) of a validly encoded frame makes decoding fail
with `ChecksumMismatch`. -/
theorem C6_single_bit_corruption (f : ModbusFrame) (i k : Nat)
    (hs : f.slave_address < 256) (hfc : f.function_code < 256)
    (hd : ∀ b ∈ f.data, b < 256)
    (hi : i < f.to_bytes.length - 2) (hk : k < 8) :
    ∃ c r, ModbusFrame.from_bytes (flipBit f.to_bytes i k) =
      .error (.crcMismatch c r) := by
  obtain ⟨s, fc, d⟩ := f
  have hbody : ∀ b ∈ s :: fc :: d, b < 256 := by
    intro b hb
    rcases hb with _ | ⟨_, hb⟩
    · exact hs
    · rcases hb with _ | ⟨_, hb⟩
      · exact hfc
      · exact hd b hb
  have hceq : ModbusFrame.calculate_crc ⟨s, fc, d⟩ = crc16 (s :: fc :: d) := rfl
  have hlt : crc16 (s :: fc :: d) < 65536 := crc16_lt hbody
  have hsplit : ModbusFrame.to_bytes ⟨s, fc, d⟩ =
      (s :: fc :: d) ++
        [crc16 (s :: fc :: d) % 256, crc16 (s :: fc :: d) / 256 % 256] := by
    simp [ModbusFrame.to_bytes, hceq]
  have hlen : (ModbusFrame.to_bytes ⟨s, fc, d⟩).length = d.length + 4 := by
    rw [hsplit]; simp
  have hi' : i < (s :: fc :: d).length := by simp; omega
  -- the flip happens inside the body, before the two CRC bytes
  have hflip : flipBit (ModbusFrame.to_bytes ⟨s, fc, d⟩) i k =
      ((s :: fc :: d).set i ((s :: fc :: d).getD i 0 ^^^ 2 ^ k)) ++
        [crc16 (s :: fc :: d) % 256, crc16 (s :: fc :: d) / 256 % 256] := by
    rw [flipBit, hsplit, List.set_append, if_pos hi',
      List.getD_append _ _ _ _ hi']
  -- decompose the body around the flipped byte
  have hgetD : (s :: fc :: d).getD i 0 = (s :: fc :: d)[i] :=
    List.getD_eq_getElem _ _ hi'
  have hset : (s :: fc :: d).set i ((s :: fc :: d).getD i 0 ^^^ 2 ^ k) =
      (s :: fc :: d).take i ++
        ((s :: fc :: d)[i] ^^^ 2 ^ k) :: (s :: fc :: d).drop (i + 1) := by
    rw [List.set_eq_take_append_cons_drop, if_pos hi', hgetD]
  have hdecomp : s :: fc :: d =
      (s :: fc :: d).take i ++ (s :: fc :: d)[i] :: (s :: fc :: d).drop (i + 1) := by
    conv_lhs => rw [← List.take_append_drop i (s :: fc :: d)]
    rw [List.drop_eq_getElem_cons hi']
  -- the corrupted body has a different CRC
  have hne : crc16 ((s :: fc :: d).set i ((s :: fc :: d).getD i 0 ^^^ 2 ^ k)) ≠
      crc16 (s :: fc :: d) := by
    rw [hset]
    conv_rhs => rw [hdecomp]
    exact crc16_set_ne _ _ _ _
      (hbody _ (List.getElem_mem hi'))
      (Nat.two_pow_pos k).ne'
      (by
        calc 2 ^ k < 2 ^ 8 := Nat.pow_lt_pow_right (by norm_num) hk
        _ = 256 := by norm_num)
      (fun x hx => hbody x (List.take_subset _ _ hx))
      (fun x hx => hbody x (List.drop_subset _ _ hx))
  -- run the decoder on the corrupted frame
  refine ⟨crc16 ((s :: fc :: d).set i ((s :: fc :: d).getD i 0 ^^^ 2 ^ k)),
    crc16 (s :: fc :: d) % 256 + 256 * (crc16 (s :: fc :: d) / 256 % 256), ?_⟩
  rw [hflip, from_bytes_append_two _ _ _ (by simp [List.length_set])]
  rw [if_pos (by
    intro hcontra
    exact hne (by rw [hcontra]; omega))]

/-- C6 witness: flipping bit 0 of the address byte of the encoded
frame for slave 1, function 3, empty payload. -/
theorem C6_single_bit_corruption_witness :
    (1 : Nat) < 256 ∧ (3 : Nat) < 256 ∧ (∀ b ∈ ([] : List Nat), b < 256) ∧
    0 < (ModbusFrame.to_bytes ⟨1, 3, []⟩).length - 2 ∧ (0 : Nat) < 8 ∧
    ∃ c r, ModbusFrame.from_bytes (flipBit (ModbusFrame.to_bytes ⟨1, 3, []⟩) 0 0) =
      .error (.crcMismatch c r) :=
  ⟨by decide, by decide, by decide, by decide, by decide,
    C6_single_bit_corruption ⟨1, 3, []⟩ 0 0 (by decide) (by decide) (by decide)
      (by decide) (by decide)⟩

/-! ## Claim theorems: the channel transaction path -/

/-- C7: when the atomic connected flag is false, both `send` and
`send_modbus_command` return the not-open error with an empty operation
trace: no lock acquisition, no write, no read, whatever the state of
the port slot, the write outcome, or the pending read script. -/
theorem C7_closed_channel_fails_fast (portPresent writeOk : Bool)
    (data command : List Nat) (script : List ReadEvent) :
    SerialPortManager.send false portPresent writeOk data = (.notOpen, []) ∧
    SerialPortManager.send_modbus_command false portPresent writeOk command script =
      (.notOpen, []) :=
  ⟨rfl, rfl⟩

/-- The read loop only ever performs reads: its operation trace is a
block of `readPort` events. -/
lemma readLoop_events : ∀ (script : List ReadEvent) (acc : List Nat),
    ∃ n, (readLoop script acc).2 = List.replicate n IOEvent.readPort
  | [], _ => ⟨0, rfl⟩
  | .readOk bs :: rest, acc => by
    by_cases h0 : bs.length > 0
    · by_cases h4 : bs.length ≥ 4
      · exact ⟨1, by simp [readLoop, h0, h4]⟩
      · obtain ⟨n, hn⟩ := readLoop_events rest (acc ++ bs)
        exact ⟨n + 1, by simp [readLoop, h0, h4, hn, List.replicate_succ]⟩
    · by_cases h4 : acc.length ≥ 4
      · exact ⟨1, by simp [readLoop, h0, h4]⟩
      · exact ⟨1, by simp [readLoop, h0, h4]⟩
  | .readErr :: rest, acc => ⟨1, rfl⟩

/-- The read loop meets the declarative description of its own
behaviour. -/
lemma readLoop_meets_spec : ∀ (script : List ReadEvent) (acc : List Nat),
    TransactionLoop script acc (readLoop script acc).1
  | [], acc => TransactionLoop.deadline acc
  | .readOk bs :: rest, acc => by
    by_cases h0 : bs.length > 0
    · by_cases h4 : bs.length ≥ 4
      · have he : (readLoop (.readOk bs :: rest) acc).1 = .ok (acc ++ bs) := by
          simp [readLoop, h0, h4]
        rw [he]
        exact .bigRead bs rest acc (by rintro rfl; simp at h0) h4
      · have he : (readLoop (.readOk bs :: rest) acc).1 =
            (readLoop rest (acc ++ bs)).1 := by
          simp [readLoop, h0, h4]
        rw [he]
        exact .smallRead bs rest acc _ (by rintro rfl; simp at h0) (by omega)
          (readLoop_meets_spec rest (acc ++ bs))
    · have hbs : bs = [] := by simpa using h0
      subst hbs
      by_cases h4 : acc.length ≥ 4
      · have he : (readLoop (.readOk [] :: rest) acc).1 = .ok acc := by
          simp [readLoop, h4]
        rw [he]
        exact .eofWithFrame rest acc h4
      · have he : (readLoop (.readOk [] :: rest) acc).1 = .connectionClosed := by
          simp [readLoop, h4]
        rw [he]
        exact .eofClosed rest acc (by omega)
  | .readErr :: rest, acc => TransactionLoop.readFailed rest acc

/-- C1 counterexample: on the read script "2 bytes, then a zero-length
read", the claimed behaviour (a zero-length read with prior accumulated
data returns that data as a complete, if short, response) requires the
result `ok [170, 187]` and excludes `connectionClosed`, but
`send_modbus_command` on an open channel returns `connectionClosed`
there, because the code only returns the accumulated data at a
zero-length read when at least 4 bytes have accumulated. -/
theorem C1_claimed_behaviour_counterexample :
    ClaimedTransactionLoop [ReadEvent.readOk [170, 187], ReadEvent.readOk []] []
      (SendResult.ok [170, 187]) ∧
    ¬ ClaimedTransactionLoop [ReadEvent.readOk [170, 187], ReadEvent.readOk []] []
      SendResult.connectionClosed ∧
    (SerialPortManager.send_modbus_command true true true [1, 3, 0, 0, 0, 1]
      [ReadEvent.readOk [170, 187], ReadEvent.readOk []]).1 =
      SendResult.connectionClosed := by
  refine ⟨?_, ?_, rfl⟩
  · exact ClaimedTransactionLoop.notEnough _ _ _ _ (by decide) (by decide)
      (ClaimedTransactionLoop.eofData _ _ (by decide))
  · intro h
    cases h with
    | notEnough _ _ _ _ hne hlen h2 =>
      cases h2 with
      | notEnough _ _ _ _ hne2 _ h3 => cases h3

/-- C1 (amended): on an open channel, `send_modbus_command` first
locks the port and writes the full request, then only performs reads;
the result is as the code's read loop defines it: a single read
delivering at least 4 bytes returns everything accumulated; a
zero-length read returns the accumulated data if at least 4 bytes have
accumulated and otherwise fails with `connectionClosed`; a read error
fails; an exhausted script (the deadline) is `timeout`. -/
theorem C1_transaction_amended (command : List Nat) (script : List ReadEvent) :
    (∃ n, (SerialPortManager.send_modbus_command true true true command script).2 =
      .lockPort :: .writeBytes command :: List.replicate n IOEvent.readPort) ∧
    TransactionLoop script []
      (SerialPortManager.send_modbus_command true true true command script).1 := by
  constructor
  · obtain ⟨n, hn⟩ := readLoop_events script []
    exact ⟨n, by simp [SerialPortManager.send_modbus_command, hn]⟩
  · have h := readLoop_meets_spec script []
    simpa [SerialPortManager.send_modbus_command] using h

/-! ## Claim theorems: the channel connection-state invariant -/

/-- C3 counterexample: starting from a state satisfying the invariant
(port present, flag true), the state reached after the first atomic
write of `close` — the port slot cleared, the flag still true — lies on
`close`'s observable trace and violates the invariant, because `close`
clears the port slot before it stores `false` to the flag and the flag
is read without the lock. -/
theorem C3_transition_window_counterexample :
    connInv ⟨true, true⟩ ∧
    ChanState.mk false true ∈
      statesAlong ⟨true, true⟩ (closeSteps (ChanState.mk true true).portPresent) ∧
    ¬ connInv ⟨false, true⟩ := by
  decide

/-- C3 (amended): each operation, run to completion, re-establishes the
invariant that a true flag implies a present port; for `open` and for
the receive task's dead-queue handling every intermediate state
satisfies it as well, while for `close` and the receive task's
disconnect handling only the endpoints do. -/
theorem C3_invariant_amended (s : ChanState) (b : Bool) (h : connInv s) :
    connInv (runSteps s (closeSteps s.portPresent)) ∧
    (∀ t ∈ statesAlong s (openSteps s.portPresent b), connInv t) ∧
    connInv (runSteps s receiveDisconnectSteps) ∧
    (∀ t ∈ statesAlong s receiveQueueDeadSteps, connInv t) := by
  obtain ⟨p, c⟩ := s
  revert h
  cases p <;> cases c <;> cases b <;> decide

/-- C3 witness: the amended invariant at the open, connected state. -/
theorem C3_invariant_amended_witness :
    connInv ⟨true, true⟩ ∧
    (connInv (runSteps ⟨true, true⟩ (closeSteps (ChanState.mk true true).portPresent)) ∧
    (∀ t ∈ statesAlong ⟨true, true⟩ (openSteps (ChanState.mk true true).portPresent true),
      connInv t) ∧
    connInv (runSteps ⟨true, true⟩ receiveDisconnectSteps) ∧
    (∀ t ∈ statesAlong ⟨true, true⟩ receiveQueueDeadSteps, connInv t)) :=
  ⟨by decide, C3_invariant_amended ⟨true, true⟩ true (by decide)⟩

/-! ## Claim theorems: the registry discovery loop -/

/-- Ports already on the watched list stay on it through the adoption
loop. -/
lemma adoptLoop_watched_mono : ∀ (reg snapshot watched : List String)
    (evs : List SerialPortEvent) (p : String), p ∈ watched →
    p ∈ (adoptLoop reg snapshot watched evs).1
  | [], _, _, _, _, hp => hp
  | q :: rest, snapshot, watched, evs, p, hp => by
    by_cases hq : q ∈ snapshot
    · rw [adoptLoop, if_pos hq]
      exact adoptLoop_watched_mono rest snapshot watched evs p hp
    · rw [adoptLoop, if_neg hq]
      exact adoptLoop_watched_mono rest snapshot _ _ p (by simp [hp])

/-- Events already emitted stay emitted through the adoption loop. -/
lemma adoptLoop_events_mono : ∀ (reg snapshot watched : List String)
    (evs : List SerialPortEvent) (e : SerialPortEvent), e ∈ evs →
    e ∈ (adoptLoop reg snapshot watched evs).2
  | [], _, _, _, _, he => he
  | q :: rest, snapshot, watched, evs, e, he => by
    by_cases hq : q ∈ snapshot
    · rw [adoptLoop, if_pos hq]
      exact adoptLoop_events_mono rest snapshot watched evs e he
    · rw [adoptLoop, if_neg hq]
      exact adoptLoop_events_mono rest snapshot _ _ e (by simp [he])

/-- A port walked by the adoption loop that is absent from the
snapshot ends up watched, with its event emitted. -/
lemma adoptLoop_adds : ∀ (reg snapshot watched : List String)
    (evs : List SerialPortEvent) (p : String), p ∈ reg → p ∉ snapshot →
    p ∈ (adoptLoop reg snapshot watched evs).1 ∧
    SerialPortEvent.portAddedToMonitoring p ∈ (adoptLoop reg snapshot watched evs).2
  | q :: rest, snapshot, watched, evs, p, hp, hns => by
    rcases List.mem_cons.mp hp with rfl | hrest
    · rw [adoptLoop, if_neg hns]
      exact ⟨adoptLoop_watched_mono rest snapshot _ _ p (by simp),
        adoptLoop_events_mono rest snapshot _ _ _ (by simp)⟩
    · by_cases hq : q ∈ snapshot
      · rw [adoptLoop, if_pos hq]
        exact adoptLoop_adds rest snapshot watched evs p hrest hns
      · rw [adoptLoop, if_neg hq]
        exact adoptLoop_adds rest snapshot _ _ p hrest hns

/-- C4 counterexample: a port that is available in the OS list but
neither registered nor watched ("COM9" with an empty registry map and
an empty watched set) is not added to the watched set by the cycle's
adoption pass and no `PortAddedToMonitoring` event is emitted for it:
the pass walks the registered ports, not the available ports. -/
theorem C4_available_unwatched_counterexample :
    "COM9" ∈ ["COM9"] ∧ "COM9" ∉ ([] : List String) ∧
    "COM9" ∉ (adoptPorts [] []).1 ∧
    SerialPortEvent.portAddedToMonitoring "COM9" ∉ (adoptPorts [] []).2 := by
  refine ⟨by simp, by simp, ?_, ?_⟩ <;> simp [adoptPorts, adoptLoop]

/-- C4 (amended): in every discovery-loop cycle, every port that is
currently registered in the registry map but not in the watched set is
added to the watched set and a `PortAddedToMonitoring` event is
emitted for it, even if it was never explicitly requested. -/
theorem C4_registered_unwatched_adopted (ports_list task_ports : List String)
    (p : String) (hreg : p ∈ ports_list) (hw : p ∉ task_ports) :
    p ∈ (adoptPorts ports_list task_ports).1 ∧
    SerialPortEvent.portAddedToMonitoring p ∈ (adoptPorts ports_list task_ports).2 :=
  adoptLoop_adds ports_list task_ports task_ports [] p hreg hw

/-- C4 witness: a registered, unwatched port is adopted. -/
theorem C4_registered_unwatched_adopted_witness :
    "COM7" ∈ ["COM7"] ∧ "COM7" ∉ ([] : List String) ∧
    ("COM7" ∈ (adoptPorts ["COM7"] []).1 ∧
    SerialPortEvent.portAddedToMonitoring "COM7" ∈ (adoptPorts ["COM7"] []).2) :=
  ⟨by simp, by simp,
    C4_registered_unwatched_adopted ["COM7"] [] "COM7" (by simp) (by simp)⟩
